import Mathlib

/-!
# aster_logger: a verification development

Shallow embedding of `main.go` (package `logger`): the four severity entry
points `Debug`, `Warn`, `Info`, `Error`, the dispatcher `getLogger`, the level
setter `SetLoggerLevel`, the request-id reader `getRequestID`, the colour
selection `getColoredDebug` and the five formatting rules that `ConfigLoader`
installs in the console writer.

The collaborators the package calls (the zerolog engine, `net/http` headers,
`strings.ToUpper`) are embedded as far as the package observes them:

* a `*zerolog.Event` is an `Option Event` (`none` is the nil pointer the engine
  returns for a disabled level, on which every method is a no-op);
* the process-wide state is the engine's global level `gLevel` and the writer
  behind the package logger `log.Logger`, which `ConfigLoader` replaces by its
  console writer; finalising a live event runs that writer, the five rules of
  `ConfigLoader` included, so a rule that panics leaves no output;
* a `*gin.Context` and its `*http.Request` are `Option`s, and a nil
  dereference is the `Except` error `Panic.nilDereference`;
* an `interface{}` handed to a formatting rule is an `Any`, and a failed
  single-value type assertion is the error `Panic.typeAssertion`.
-/

namespace logger

/-! ## Constants of `main.go` -/

def REQUEST_HEADER : String := "X-Request-ID"
def colorReset : String := "\x1b[0m"
def colorRed : String := "\x1b[31m"
def colorYellow : String := "\x1b[33m"
def colorBlue : String := "\x1b[34m"
def colorGreen : String := "\x1b[32m"

/-- The escape character that starts every ANSI colour sequence. -/
def ESC : Char := Char.ofNat 27

/-! ## Run-time failures -/

/-- Go run-time panics the package can raise. -/
inductive Panic where
  | nilDereference
  | typeAssertion
  deriving DecidableEq

deriving instance DecidableEq for Except

/-! ## Go maps -/

/-- Two-value map index `v, ok := m[k]`: a missing key gives the zero value of
the element type and `ok = false`. -/
def mapIndex {α : Type} (zero : α) : List (String × α) → String → α × Bool
  | [], _ => (zero, false)
  | (k, v) :: rest, key => if key = k then (v, true) else mapIndex zero rest key

/-! ## The zerolog engine, as far as the package observes it -/

namespace zerolog

/-- Engine type `zerolog.Level` (an `int8`). -/
abbrev Level := Int

def DebugLevel : Level := 0
def InfoLevel : Level := 1
def WarnLevel : Level := 2
def ErrorLevel : Level := 3
def TraceLevel : Level := -1

/-- Process-wide engine state: the global minimum level (`gLevel`). -/
structure Globals where
  gLevel : Level
  deriving DecidableEq

/-- Engine state at process start: the engine's `init` calls
`SetGlobalLevel(TraceLevel)`, so the minimum starts below the debug level. -/
def Globals.init : Globals := ⟨TraceLevel⟩

/-- Engine function `zerolog.SetGlobalLevel`. -/
def SetGlobalLevel (l : Level) (_g : Globals) : Globals := ⟨l⟩

/-- Engine function `zerolog.GlobalLevel`. -/
def GlobalLevel (g : Globals) : Level := g.gLevel

/-- A field value attached to an event (the package attaches string fields
only). -/
inductive FieldValue where
  | str (s : String)
  deriving DecidableEq

/-- A live event: its level and the fields attached so far, in order. -/
structure Event where
  level : Level
  fields : List (String × FieldValue)
  deriving DecidableEq

/-- Own level of the package logger `log.Logger`: `zerolog.New` creates a
logger at `TraceLevel`, and the package never lowers its verbosity. -/
def loggerLevel : Level := TraceLevel

/-- Engine method `Logger.should`: an event of level `lvl` is created only when
`lvl` is below neither the logger's own level nor the global level. -/
def should (g : Globals) (lvl : Level) : Bool :=
  !(decide (lvl < loggerLevel) || decide (lvl < GlobalLevel g))

/-- Engine method `Logger.newEvent`: a fresh event, or nil when disabled. -/
def newEvent (g : Globals) (lvl : Level) : Option Event :=
  if should g lvl then some ⟨lvl, []⟩ else none

/-- Engine method `(*Event).Str`: nil stays nil, a live event gets the string
field appended. -/
def Event.Str (e : Option Event) (key val : String) : Option Event :=
  match e with
  | none => none
  | some ev => some ⟨ev.level, ev.fields ++ [(key, FieldValue.str val)]⟩

end zerolog

namespace log

/-- Engine function `log.Debug`. -/
def Debug (g : zerolog.Globals) : Option zerolog.Event := zerolog.newEvent g zerolog.DebugLevel
/-- Engine function `log.Info`. -/
def Info (g : zerolog.Globals) : Option zerolog.Event := zerolog.newEvent g zerolog.InfoLevel
/-- Engine function `log.Warn`. -/
def Warn (g : zerolog.Globals) : Option zerolog.Event := zerolog.newEvent g zerolog.WarnLevel
/-- Engine function `log.Error`. -/
def Error (g : zerolog.Globals) : Option zerolog.Event := zerolog.newEvent g zerolog.ErrorLevel

end log

/-! ## Request headers -/

namespace http

/-- Library predicate `validHeaderFieldByte`: the token characters of RFC 7230. -/
def validHeaderFieldByte (c : Char) : Bool :=
  c.isAlphanum ||
    [33, 35, 36, 37, 38, 39, 42, 43, 45, 46, 94, 95, 96, 124, 126].contains c.toNat

/-- Inner loop of `canonicalMIMEHeaderKey`: the first letter and every letter
after a hyphen in upper case, the others in lower case. -/
def canonicalize : Bool → List Char → List Char
  | _, [] => []
  | upper, c :: cs =>
    (if upper then c.toUpper else c.toLower) :: canonicalize (c = '-') cs

/-- Library function `textproto.CanonicalMIMEHeaderKey`: a key with a byte
that is no token character is returned unchanged. -/
def CanonicalMIMEHeaderKey (s : String) : String :=
  if s.data.all validHeaderFieldByte then ⟨canonicalize true s.data⟩ else s

/-- Type `http.Header`, a map from canonical key to the list of values (the
nil map reads as the empty one). -/
abbrev Header := List (String × List String)

/-- Library method `Header.Get`: the first value stored under the canonical
form of `key`, or the empty string. -/
def Header.Get (h : Header) (key : String) : String :=
  match (mapIndex [] h (CanonicalMIMEHeaderKey key)).1 with
  | [] => ""
  | v :: _ => v

/-- Type `http.Request`, as far as the package reads it. -/
structure Request where
  Header : Header
  deriving DecidableEq

end http

namespace gin

/-- Type `gin.Context`, as far as the package reads it: the pointer to the
request, which may be nil. -/
structure Context where
  Request : Option http.Request
  deriving DecidableEq

end gin

/-! ## The package -/

/-- Function `getRequestID` of `main.go`: `c.Request.Header.Get(REQUEST_HEADER)`;
a nil context or a nil request panics. -/
def getRequestID (c : Option gin.Context) : Except Panic String :=
  match c with
  | none => .error .nilDereference
  | some ctx =>
    match ctx.Request with
    | none => .error .nilDereference
    | some r => .ok (r.Header.Get REQUEST_HEADER)

/-- Function `getLogger` of `main.go`. The map literal builds the events of all
four levels; a missing key falls back to a fresh `log.Debug()`. -/
def getLogger (g : zerolog.Globals) (level : String) (context : List (Option gin.Context)) :
    Except Panic (Option zerolog.Event) :=
  let loggers : List (String × Option zerolog.Event) :=
    [("DEBUG", log.Debug g), ("WARN", log.Warn g), ("INFO", log.Info g), ("ERROR", log.Error g)]
  let logger : Option zerolog.Event :=
    if !(mapIndex none loggers level).2 then log.Debug g
    else (mapIndex none loggers level).1
  match context with
  | [] => .ok logger
  | c :: _ =>
    match getRequestID c with
    | .error p => .error p
    | .ok id => .ok (zerolog.Event.Str logger "request-id" (colorGreen ++ id ++ colorReset))

/-- Function `Debug` of `main.go`. -/
def Debug (g : zerolog.Globals) (context : List (Option gin.Context)) :
    Except Panic (Option zerolog.Event) := getLogger g "DEBUG" context

/-- Function `Warn` of `main.go`. -/
def Warn (g : zerolog.Globals) (context : List (Option gin.Context)) :
    Except Panic (Option zerolog.Event) := getLogger g "WARN" context

/-- Function `Info` of `main.go`. -/
def Info (g : zerolog.Globals) (context : List (Option gin.Context)) :
    Except Panic (Option zerolog.Event) := getLogger g "INFO" context

/-- Function `Error` of `main.go`. -/
def Error (g : zerolog.Globals) (context : List (Option gin.Context)) :
    Except Panic (Option zerolog.Event) := getLogger g "ERROR" context

/-- The map literal `logger_levels` of `SetLoggerLevel`. -/
def logger_levels : List (String × zerolog.Level) :=
  [("DEBUG", zerolog.DebugLevel), ("INFO", zerolog.InfoLevel),
   ("ERROR", zerolog.ErrorLevel), ("WARN", zerolog.WarnLevel)]

/-- Function `SetLoggerLevel` of `main.go`: the write inside the `if`, then the
unconditional write of `logger_levels[logLevel]` (zero value of `Level` for a
missing key). -/
def SetLoggerLevel (logLevel : String) (g : zerolog.Globals) : zerolog.Globals :=
  let g1 := if !(mapIndex (0 : zerolog.Level) logger_levels logLevel).2
    then zerolog.SetGlobalLevel zerolog.DebugLevel g else g
  zerolog.SetGlobalLevel (mapIndex (0 : zerolog.Level) logger_levels logLevel).1 g1

/-! ## Console formatting -/

namespace unicode

/-- Library function `unicode.ToUpper`, restricted to the mappings that can
produce an ASCII letter: the ASCII lower-case letters, the dotless i (U+0131,
upper case `I`) and the long s (U+017F, upper case `S`). Every other rune the
library maps stays outside ASCII, so it cannot affect a comparison with an
ASCII label and is left in place here. -/
def ToUpper (c : Char) : Char :=
  if c.toNat = 0x131 then 'I'
  else if c.toNat = 0x17F then 'S'
  else c.toUpper

end unicode

namespace strings

/-- Library function `strings.ToUpper`: every rune mapped to upper case. -/
def ToUpper (s : String) : String := ⟨s.data.map unicode.ToUpper⟩

end strings

/-- Function `getColoredDebug` of `main.go`. -/
def getColoredDebug (level : String) : String :=
  if strings.ToUpper level = "INFO" then colorYellow ++ level ++ colorReset
  else if strings.ToUpper level = "WARN" ∨ strings.ToUpper level = "ERROR" then
    colorRed ++ level ++ colorReset
  else level

/-- A Go `interface{}` value as the console writer hands it to a formatting
rule: nil (a part the event lacks), a string, a `json.Number` (the decimal
text of a numeric field, the writer decoding the event with `UseNumber`) or a
byte slice (any other field value, marshalled again). -/
inductive Any where
  | nil
  | string (s : String)
  | jsonNumber (s : String)
  | bytes (b : List Nat)
  deriving DecidableEq

/-- Single-value type assertion `i.(string)`: panics unless the dynamic type
is exactly `string`. -/
def Any.assertString : Any → Except Panic String
  | .string s => .ok s
  | _ => .error .typeAssertion

namespace ConfigLoader

/-- Rule `FormatTimestamp` of the console writer built by `ConfigLoader`. -/
def FormatTimestamp (i : Any) : Except Panic String :=
  match i.assertString with
  | .error p => .error p
  | .ok s => .ok (colorBlue ++ "[" ++ s ++ "]" ++ colorReset)

/-- Rule `FormatLevel` of the console writer built by `ConfigLoader`. -/
def FormatLevel (i : Any) : Except Panic String :=
  match i.assertString with
  | .error p => .error p
  | .ok s => .ok ("|" ++ getColoredDebug s ++ "|")

/-- Rule `FormatMessage` of the console writer built by `ConfigLoader`. -/
def FormatMessage (i : Any) : Except Panic String :=
  match i.assertString with
  | .error p => .error p
  | .ok s => .ok ("- " ++ s)

/-- Rule `FormatFieldName` of the console writer built by `ConfigLoader`. -/
def FormatFieldName (i : Any) : Except Panic String :=
  match i.assertString with
  | .error p => .error p
  | .ok s => .ok (s ++ ":")

/-- Rule `FormatFieldValue` of the console writer built by `ConfigLoader`. -/
def FormatFieldValue (i : Any) : Except Panic String :=
  match i.assertString with
  | .error p => .error p
  | .ok s => .ok s

end ConfigLoader

/-! ## Finalising an event -/

namespace zerolog

/-- The writer behind the package logger `log.Logger`: the JSON writer the
logger of package `log` starts with, or the console writer of `ConfigLoader`. -/
inductive Writer where
  | json
  | console
  deriving DecidableEq

/-- What the engine contributes while it finalises an event, none of it
computed by the package: the timestamp text in the engine's default time format
and the call site (both added by the hooks of the logger `ConfigLoader`
builds), and the library function `strconv.Quote`. -/
structure Env where
  time : String
  caller : String
  Quote : String → String

/-- Engine method `Level.String`. -/
def Level.String (l : Level) : String :=
  if l = -1 then "trace" else if l = 0 then "debug" else if l = 1 then "info"
  else if l = 2 then "warn" else if l = 3 then "error" else if l = 4 then "fatal"
  else if l = 5 then "panic" else if l = 6 then "" else if l = 7 then "disabled"
  else toString l

/-- The event as the console writer decodes it, in the order the engine wrote
the keys: the level (none for `NoLevel`, which is 6), the fields, the timestamp
and the call site added by the hooks, and the message unless it is empty. -/
def decoded (env : Env) (ev : Event) (msg : String) : List (String × String) :=
  (if ev.level = 6 then [] else [("level", Level.String ev.level)]) ++
  ev.fields.map (fun kv => (kv.1, match kv.2 with | .str s => s)) ++
  [("time", env.time), ("caller", env.caller)] ++
  (if msg = "" then [] else [("message", msg)])

/-- Index `evt[p]` of the decoded event, a Go map in which the last of several
equal keys has won; a missing key gives the nil interface. -/
def evtIndex (evt : List (String × String)) (p : String) : Any :=
  match mapIndex (none : Option String) (evt.reverse.map fun kv => (kv.1, some kv.2)) p with
  | (some s, _) => .string s
  | (none, _) => .nil

/-- Engine function `needsQuote` of the console writer. -/
def needsQuote (s : String) : Bool :=
  s.data.any fun c =>
    decide (c.toNat < 0x20) || decide (c.toNat > 0x7e) || c.toNat == 32 || c.toNat == 92 ||
      c.toNat == 34

/-- The names `writeFields` visits: every key of the decoded event that is
none of the four parts nor the error field, once each, sorted. -/
def fieldNames (evt : List (String × String)) : List String :=
  (((evt.map Prod.fst).filter
    fun k => !(["level", "time", "message", "caller", "error"].contains k)).dedup).insertionSort
      (fun a b => a ≤ b)

/-- One line of the console writer, part by part: the results of the rules of
`ConfigLoader`; the call site and the error field are laid out by rules of the
engine and are kept as decoded. -/
structure ConsoleLine where
  timestamp : String
  level : String
  caller : Any
  message : String
  fields : List (String × String)
  error : Any
  deriving DecidableEq

/-- Loop of `writeFields`: the field-name rule on the name and the field-value
rule on the value, a string value that needs quotes being quoted first. -/
def writeFields (env : Env) (evt : List (String × String)) :
    List String → Except Panic (List (String × String))
  | [] => .ok []
  | k :: ks =>
    match ConfigLoader.FormatFieldName (.string k) with
    | .error p => .error p
    | .ok n =>
      match ConfigLoader.FormatFieldValue
          (match evtIndex evt k with
            | .string s => .string (if needsQuote s then env.Quote s else s)
            | v => v) with
      | .error p => .error p
      | .ok v =>
        match writeFields env evt ks with
        | .error p => .error p
        | .ok rest => .ok ((n, v) :: rest)

/-- Engine method `ConsoleWriter.Write` with the rules of `ConfigLoader`: the
parts in the order time, level, caller, message, then the fields. A rule that
panics ends the write before anything reaches the output. -/
def consoleWrite (env : Env) (ev : Event) (msg : String) : Except Panic ConsoleLine :=
  match ConfigLoader.FormatTimestamp (evtIndex (decoded env ev msg) "time") with
  | .error p => .error p
  | .ok t =>
    match ConfigLoader.FormatLevel (evtIndex (decoded env ev msg) "level") with
    | .error p => .error p
    | .ok l =>
      match ConfigLoader.FormatMessage (evtIndex (decoded env ev msg) "message") with
      | .error p => .error p
      | .ok m =>
        match writeFields env (decoded env ev msg) (fieldNames (decoded env ev msg)) with
        | .error p => .error p
        | .ok fs =>
          .ok ⟨t, l, evtIndex (decoded env ev msg) "caller", m, fs,
            evtIndex (decoded env ev msg) "error"⟩

/-- What has reached the output: an event written as JSON (its level, fields
and message; the encoding is the engine's) or a line of the console writer. -/
inductive Output where
  | json (level : Level) (fields : List (String × FieldValue)) (message : String)
  | line (l : ConsoleLine)
  deriving DecidableEq

/-- Engine method `(*Event).Msg` on a handle of the logger whose writer is `w`:
finalising a nil handle writes nothing; a live event is written by `w`, and a
panic of the console writer's rules propagates to the caller with nothing
written. -/
def Event.Msg (w : Writer) (env : Env) (e : Option Event) (msg : String)
    (out : List Output) : Except Panic (List Output) :=
  match e with
  | none => .ok out
  | some ev =>
    match w with
    | .json => .ok (out ++ [.json ev.level ev.fields msg])
    | .console =>
      match consoleWrite env ev msg with
      | .error p => .error p
      | .ok l => .ok (out ++ [.line l])

end zerolog

/-- Function `ConfigLoader` of `main.go`: replaces the writer of `log.Logger`
by the console writer with the five rules above. -/
def ConfigLoader (_w : zerolog.Writer) : zerolog.Writer := zerolog.Writer.console

/-! ## Shared lemmas -/

/-- The four names the package recognises. -/
def levelNames : List String := ["DEBUG", "INFO", "WARN", "ERROR"]

theorem mapIndex_absent {α : Type} (zero : α) (m : List (String × α)) (key : String)
    (h : ∀ kv ∈ m, kv.1 ≠ key) : mapIndex zero m key = (zero, false) := by
  induction m with
  | nil => rfl
  | cons kv rest ih =>
    obtain ⟨k, v⟩ := kv
    have hk : key ≠ k := fun hEq => h (k, v) (List.mem_cons_self _ _) hEq.symm
    have hrest : ∀ kv ∈ rest, kv.1 ≠ key := fun kv hkv => h kv (List.mem_cons_of_mem _ hkv)
    simp [mapIndex, hk, ih hrest]

theorem not_mem_levelNames {level : String} (h : level ∉ levelNames) :
    level ≠ "DEBUG" ∧ level ≠ "INFO" ∧ level ≠ "WARN" ∧ level ≠ "ERROR" := by
  simp [levelNames] at h
  tauto

theorem mapIndex_logger_levels_unknown {level : String} (h : level ∉ levelNames) :
    mapIndex (0 : zerolog.Level) logger_levels level = (0, false) := by
  obtain ⟨h1, h2, h3, h4⟩ := not_mem_levelNames h
  simp [mapIndex, logger_levels, h1, h2, h3, h4]

/-- Whatever was written inside the `if`, the state `SetLoggerLevel` leaves is
the one of its last write. -/
theorem SetLoggerLevel_eq (logLevel : String) (g : zerolog.Globals) :
    SetLoggerLevel logLevel g = ⟨(mapIndex (0 : zerolog.Level) logger_levels logLevel).1⟩ := by
  simp [SetLoggerLevel, zerolog.SetGlobalLevel]

/-- The handle `getLogger` resolves before any field is attached: the event of
the engine constructor bound to the name, the debug one for an unknown name. -/
theorem getLogger_nil_context (g : zerolog.Globals) (level : String) :
    getLogger g level [] =
      .ok (zerolog.newEvent g (mapIndex (0 : zerolog.Level) logger_levels level).1) := by
  by_cases h1 : level = "DEBUG"
  · subst h1; rfl
  by_cases h2 : level = "INFO"
  · subst h2; rfl
  by_cases h3 : level = "WARN"
  · subst h3; rfl
  by_cases h4 : level = "ERROR"
  · subst h4; rfl
  simp [getLogger, mapIndex, logger_levels, h1, h2, h3, h4, log.Debug, zerolog.DebugLevel]

/-- With a context, `getLogger` reads the request id and attaches it to the
handle it resolved. -/
theorem getLogger_cons_context (g : zerolog.Globals) (level : String)
    (c : Option gin.Context) (rest : List (Option gin.Context)) :
    getLogger g level (c :: rest) =
      match getRequestID c with
      | .error p => .error p
      | .ok id =>
        .ok (zerolog.Event.Str
          (zerolog.newEvent g (mapIndex (0 : zerolog.Level) logger_levels level).1)
          "request-id" (colorGreen ++ id ++ colorReset)) := by
  have h := getLogger_nil_context g level
  simp only [getLogger] at h ⊢
  injection h with h
  rw [h]

theorem newEvent_level (g : zerolog.Globals) (lvl : zerolog.Level) (e : zerolog.Event)
    (h : zerolog.newEvent g lvl = some e) : e.level = lvl := by
  unfold zerolog.newEvent at h
  split at h
  · injection h with h; rw [← h]
  · exact absurd h (by simp)

theorem Str_level (e : Option zerolog.Event) (key val : String) (ev : zerolog.Event)
    (h : zerolog.Event.Str e key val = some ev) : ∃ e0, e = some e0 ∧ e0.level = ev.level := by
  cases e with
  | none => simp [zerolog.Event.Str] at h
  | some e0 =>
    simp only [zerolog.Event.Str] at h
    injection h with h
    exact ⟨e0, rfl, by rw [← h]⟩

/-- Every live handle `getLogger` returns has the level bound to its name. -/
theorem getLogger_level (g : zerolog.Globals) (level : String)
    (context : List (Option gin.Context)) (e : zerolog.Event)
    (h : getLogger g level context = .ok (some e)) :
    e.level = (mapIndex (0 : zerolog.Level) logger_levels level).1 := by
  cases context with
  | nil =>
    rw [getLogger_nil_context] at h
    injection h with h
    exact newEvent_level g _ e h
  | cons c rest =>
    rw [getLogger_cons_context] at h
    cases hc : getRequestID c with
    | error p => rw [hc] at h; simp at h
    | ok id =>
      rw [hc] at h
      simp only at h
      injection h with h
      obtain ⟨e0, he0, hl⟩ := Str_level _ _ _ e h
      rw [← hl]
      exact newEvent_level g _ e0 he0

/-- A failure of `getLogger` is always a failure of reading the request. -/
theorem getLogger_error (g : zerolog.Globals) (level : String)
    (context : List (Option gin.Context)) (p : Panic)
    (h : getLogger g level context = .error p) :
    ∃ c rest, context = c :: rest ∧ getRequestID c = .error p := by
  cases context with
  | nil => rw [getLogger_nil_context] at h; simp at h
  | cons c rest =>
    rw [getLogger_cons_context] at h
    cases hc : getRequestID c with
    | error q =>
      rw [hc] at h
      simp only at h
      injection h with h
      exact ⟨c, rest, rfl, by rw [hc, h]⟩
    | ok id => rw [hc] at h; simp at h

/-- Whether the handle is live depends on the name and the global level only. -/
theorem getLogger_isSome (g : zerolog.Globals) (level : String)
    (context : List (Option gin.Context)) (e : Option zerolog.Event)
    (h : getLogger g level context = .ok e) :
    e.isSome = zerolog.should g (mapIndex (0 : zerolog.Level) logger_levels level).1 := by
  have key : ∀ lvl, (zerolog.newEvent g lvl).isSome = zerolog.should g lvl := by
    intro lvl
    unfold zerolog.newEvent
    cases zerolog.should g lvl <;> simp
  cases context with
  | nil =>
    rw [getLogger_nil_context] at h
    injection h with h
    rw [← h, key]
  | cons c rest =>
    rw [getLogger_cons_context] at h
    cases hc : getRequestID c with
    | error p => rw [hc] at h; simp at h
    | ok id =>
      rw [hc] at h
      simp only at h
      injection h with h
      rw [← h, ← key]
      cases zerolog.newEvent g (mapIndex (0 : zerolog.Level) logger_levels level).1 <;>
        simp [zerolog.Event.Str]

/-- Finalising a handle writes a record exactly when the handle is live. -/
theorem live_iff (g : zerolog.Globals) (L N : String)
    (context : List (Option gin.Context)) (e : Option zerolog.Event)
    (hN : zerolog.TraceLevel ≤ (mapIndex (0 : zerolog.Level) logger_levels N).1)
    (h : getLogger (SetLoggerLevel L g) N context = .ok e) :
    e.isSome = true ↔
      (mapIndex (0 : zerolog.Level) logger_levels L).1 ≤
        (mapIndex (0 : zerolog.Level) logger_levels N).1 := by
  rw [getLogger_isSome _ _ _ _ h, SetLoggerLevel_eq]
  simp only [zerolog.should, zerolog.GlobalLevel, zerolog.loggerLevel, zerolog.TraceLevel] at hN ⊢
  simp only [Bool.not_eq_true', Bool.or_eq_false_iff, decide_eq_false_iff_not, not_lt]
  constructor
  · intro h2; exact h2.2
  · intro h2; exact ⟨hN, h2⟩

/-- The level bound to a name is one of the four the package uses. -/
theorem level_of_name (N : String) :
    (mapIndex (0 : zerolog.Level) logger_levels N).1 = 0 ∨
    (mapIndex (0 : zerolog.Level) logger_levels N).1 = 1 ∨
    (mapIndex (0 : zerolog.Level) logger_levels N).1 = 2 ∨
    (mapIndex (0 : zerolog.Level) logger_levels N).1 = 3 := by
  by_cases h1 : N = "DEBUG"
  · subst h1; exact Or.inl rfl
  by_cases h2 : N = "INFO"
  · subst h2; exact Or.inr (Or.inl rfl)
  by_cases h3 : N = "WARN"
  · subst h3; exact Or.inr (Or.inr (Or.inl rfl))
  by_cases h4 : N = "ERROR"
  · subst h4; exact Or.inr (Or.inr (Or.inr rfl))
  exact Or.inl (by simp [mapIndex, logger_levels, h1, h2, h3, h4])

/-- A live event `getLogger` returns carries no field, or the request-id field
alone. -/
theorem getLogger_fields (g : zerolog.Globals) (level : String)
    (context : List (Option gin.Context)) (e : zerolog.Event)
    (h : getLogger g level context = .ok (some e)) :
    e.fields = [] ∨ ∃ v, e.fields = [("request-id", zerolog.FieldValue.str v)] := by
  cases context with
  | nil =>
    rw [getLogger_nil_context] at h
    injection h with h
    unfold zerolog.newEvent at h
    split at h
    · injection h with h; rw [← h]; exact Or.inl rfl
    · exact absurd h (by simp)
  | cons c rest =>
    rw [getLogger_cons_context] at h
    cases hc : getRequestID c with
    | error p => rw [hc] at h; simp at h
    | ok id =>
      rw [hc] at h
      simp only at h
      injection h with h
      unfold zerolog.newEvent at h
      split at h
      · simp only [zerolog.Event.Str] at h
        injection h with h
        rw [← h]; exact Or.inr ⟨_, rfl⟩
      · simp [zerolog.Event.Str] at h

theorem FormatTimestamp_string (s : String) :
    ConfigLoader.FormatTimestamp (.string s) = .ok (colorBlue ++ "[" ++ s ++ "]" ++ colorReset) :=
  rfl

theorem FormatLevel_string (s : String) :
    ConfigLoader.FormatLevel (.string s) = .ok ("|" ++ getColoredDebug s ++ "|") := rfl

theorem FormatMessage_string (s : String) :
    ConfigLoader.FormatMessage (.string s) = .ok ("- " ++ s) := rfl

theorem FormatFieldName_string (s : String) :
    ConfigLoader.FormatFieldName (.string s) = .ok (s ++ ":") := rfl

theorem FormatFieldValue_string (s : String) :
    ConfigLoader.FormatFieldValue (.string s) = .ok s := rfl

/-- The console writer on an event as the entry points return it (one of the
four levels, no field or the request-id field alone): it writes a line for a
non-empty message and panics in the message rule for the empty one. -/
theorem consoleWrite_entry_event (env : zerolog.Env) (ev : zerolog.Event) (msg : String)
    (hl : ev.level = 0 ∨ ev.level = 1 ∨ ev.level = 2 ∨ ev.level = 3)
    (hf : ev.fields = [] ∨ ∃ v, ev.fields = [("request-id", zerolog.FieldValue.str v)]) :
    (msg ≠ "" → ∃ l, zerolog.consoleWrite env ev msg = .ok l) ∧
    (msg = "" → zerolog.consoleWrite env ev msg = .error Panic.typeAssertion) := by
  obtain ⟨lvl, fields⟩ := ev
  simp only at hl hf
  constructor
  · intro hm
    rcases hf with rfl | ⟨v, rfl⟩
    · rcases hl with rfl | rfl | rfl | rfl <;>
        simp [zerolog.consoleWrite, zerolog.decoded, zerolog.evtIndex, mapIndex,
          zerolog.Level.String, FormatTimestamp_string, FormatLevel_string,
          FormatMessage_string, hm, zerolog.fieldNames, zerolog.writeFields]
    · rcases hl with rfl | rfl | rfl | rfl <;>
        simp [zerolog.consoleWrite, zerolog.decoded, zerolog.evtIndex, mapIndex,
          zerolog.Level.String, FormatTimestamp_string, FormatLevel_string,
          FormatMessage_string, hm, zerolog.fieldNames, zerolog.writeFields,
          FormatFieldName_string, FormatFieldValue_string]
  · rintro rfl
    rcases hf with rfl | ⟨v, rfl⟩
    · rcases hl with rfl | rfl | rfl | rfl <;>
        simp [zerolog.consoleWrite, zerolog.decoded, zerolog.evtIndex, mapIndex,
          zerolog.Level.String, FormatTimestamp_string, FormatLevel_string,
          ConfigLoader.FormatMessage, Any.assertString]
    · rcases hl with rfl | rfl | rfl | rfl <;>
        simp [zerolog.consoleWrite, zerolog.decoded, zerolog.evtIndex, mapIndex,
          zerolog.Level.String, FormatTimestamp_string, FormatLevel_string,
          ConfigLoader.FormatMessage, Any.assertString]

/-- Finalising a handle `getLogger` returned: a nil handle writes nothing; a
live one is written when the message is non-empty or the writer is the JSON
one, and makes the console writer panic when the message is empty. -/
theorem Msg_entry_event (w : zerolog.Writer) (env : zerolog.Env) (g : zerolog.Globals)
    (N : String) (context : List (Option gin.Context)) (e : Option zerolog.Event)
    (msg : String) (out : List zerolog.Output) (h : getLogger g N context = .ok e) :
    (e.isSome = false → zerolog.Event.Msg w env e msg out = .ok out) ∧
    (e.isSome = true → msg ≠ "" ∨ w = zerolog.Writer.json →
      ∃ o, zerolog.Event.Msg w env e msg out = .ok (out ++ [o])) ∧
    (e.isSome = true → msg = "" → w = zerolog.Writer.console →
      zerolog.Event.Msg w env e msg out = .error Panic.typeAssertion) := by
  cases e with
  | none => simp [zerolog.Event.Msg]
  | some ev =>
    have hl : ev.level = 0 ∨ ev.level = 1 ∨ ev.level = 2 ∨ ev.level = 3 := by
      rw [getLogger_level g N context ev h]
      exact level_of_name N
    have hw := consoleWrite_entry_event env ev msg hl (getLogger_fields g N context ev h)
    refine ⟨by simp, ?_, ?_⟩
    · intro _ hm
      cases w with
      | json => exact ⟨_, rfl⟩
      | console =>
        rcases hm with hm | hm
        · obtain ⟨l, hl2⟩ := hw.1 hm
          exact ⟨.line l, by simp [zerolog.Event.Msg, hl2]⟩
        · exact absurd hm (by simp)
    · intro _ hm hc
      subst hc
      simp [zerolog.Event.Msg, hw.2 hm]

/-! ## The claims -/

/-- C1: for every severity name that is none of "DEBUG", "INFO", "WARN",
"ERROR" and every list of contexts, `getLogger` gives exactly the result of
`getLogger "DEBUG"`: the handle of the engine's debug constructor, whose live
event has the debug level (and is live at the most verbose minimum level); the
unknown name signals no error, the only failure of the call being one of
reading the request of the context. -/
theorem C1_unknown_name_dispatches_as_debug (g : zerolog.Globals) (level : String)
    (h : level ∉ levelNames) (context : List (Option gin.Context)) :
    getLogger g level context = getLogger g "DEBUG" context ∧
    getLogger g level [] = .ok (log.Debug g) ∧
    (∀ e, getLogger g level context = .ok (some e) → e.level = zerolog.DebugLevel) ∧
    (zerolog.GlobalLevel g ≤ zerolog.DebugLevel →
      getLogger g level [] = .ok (some ⟨zerolog.DebugLevel, []⟩)) ∧
    (∀ p, getLogger g level context = .error p →
      ∃ c rest, context = c :: rest ∧ getRequestID c = .error p) := by
  have hz : (mapIndex (0 : zerolog.Level) logger_levels level).1 = zerolog.DebugLevel := by
    rw [mapIndex_logger_levels_unknown h]; rfl
  have hd : (mapIndex (0 : zerolog.Level) logger_levels "DEBUG").1 = zerolog.DebugLevel := rfl
  refine ⟨?_, ?_, ?_, ?_, ?_⟩
  · cases context with
    | nil => rw [getLogger_nil_context, getLogger_nil_context, hz, hd]
    | cons c rest => rw [getLogger_cons_context, getLogger_cons_context, hz, hd]
  · rw [getLogger_nil_context, hz]; rfl
  · intro e he
    rw [getLogger_level g level context e he, hz]
  · intro hg
    rw [getLogger_nil_context, hz]
    have hs : zerolog.should g zerolog.DebugLevel = true := by
      simp only [zerolog.GlobalLevel, zerolog.DebugLevel] at hg
      simp only [zerolog.should, zerolog.GlobalLevel, zerolog.loggerLevel, zerolog.TraceLevel,
        zerolog.DebugLevel]
      simp only [Bool.not_eq_true', Bool.or_eq_false_iff, decide_eq_false_iff_not, not_lt]
      exact ⟨by decide, hg⟩
    simp [zerolog.newEvent, hs]
  · intro p hp
    exact getLogger_error g level context p hp

/-- Witness of C1 at the name "TRACE", the initial engine state and a request
carrying the header. -/
theorem C1_unknown_name_dispatches_as_debug_witness :
    "TRACE" ∉ levelNames ∧
    getLogger zerolog.Globals.init "TRACE"
        [some ⟨some ⟨[("X-Request-Id", ["abc-123"])]⟩⟩] =
      getLogger zerolog.Globals.init "DEBUG"
        [some ⟨some ⟨[("X-Request-Id", ["abc-123"])]⟩⟩] ∧
    getLogger zerolog.Globals.init "TRACE" [] = .ok (some ⟨zerolog.DebugLevel, []⟩) :=
  ⟨by decide,
   (C1_unknown_name_dispatches_as_debug zerolog.Globals.init "TRACE" (by decide)
      [some ⟨some ⟨[("X-Request-Id", ["abc-123"])]⟩⟩]).1,
   (C1_unknown_name_dispatches_as_debug zerolog.Globals.init "TRACE" (by decide)
      []).2.2.2.1 (by decide)⟩

/-- C2: for every unrecognised severity name `s` and every prior global state,
the state after `SetLoggerLevel s` is the state after `SetLoggerLevel "DEBUG"`,
its minimum level is the engine's debug level, and that level is the one the
last write stores: the zero value the map index gives for the missing key. -/
theorem C2_unknown_name_sets_debug_level (g : zerolog.Globals) (s : String)
    (h : s ∉ levelNames) :
    SetLoggerLevel s g = SetLoggerLevel "DEBUG" g ∧
    zerolog.GlobalLevel (SetLoggerLevel s g) = zerolog.DebugLevel ∧
    mapIndex (0 : zerolog.Level) logger_levels s = (zerolog.DebugLevel, false) ∧
    SetLoggerLevel s g =
      zerolog.SetGlobalLevel (mapIndex (0 : zerolog.Level) logger_levels s).1
        (zerolog.SetGlobalLevel zerolog.DebugLevel g) := by
  have hz := mapIndex_logger_levels_unknown h
  refine ⟨?_, ?_, ?_, ?_⟩
  · rw [SetLoggerLevel_eq, SetLoggerLevel_eq, hz]; rfl
  · rw [SetLoggerLevel_eq, hz]; rfl
  · rw [hz]; rfl
  · simp [SetLoggerLevel, hz]

/-- Witness of C2 at the name "bogus" and a prior minimum level of error. -/
theorem C2_unknown_name_sets_debug_level_witness :
    "bogus" ∉ levelNames ∧
    zerolog.GlobalLevel (SetLoggerLevel "bogus" ⟨zerolog.ErrorLevel⟩) = zerolog.DebugLevel :=
  ⟨by decide,
   (C2_unknown_name_sets_debug_level ⟨zerolog.ErrorLevel⟩ "bogus" (by decide)).2.1⟩

/-- C3: after `SetLoggerLevel L` the level filter is the one claimed (below the
level of `L` an entry point returns the nil handle and finalising it writes
nothing; at or above it the handle is live), but finalising a live handle does
not always render it: with the console writer of `ConfigLoader` and an empty
message the message rule receives nil and panics, so an event of sufficient
severity, such as `Error` after `SetLoggerLevel "ERROR"`, is not rendered. For
a non-empty message, or with the JSON writer, the event is written exactly
when the level of the entry point is at least the level of `L`. -/
theorem C3_empty_message_panics_before_rendering (env : zerolog.Env) (g : zerolog.Globals)
    (w : zerolog.Writer) (L : String) (hL : L ∈ levelNames)
    (context : List (Option gin.Context)) (e : Option zerolog.Event) (msg : String)
    (out : List zerolog.Output) :
    (Error (SetLoggerLevel "ERROR" g) [] = .ok (some ⟨zerolog.ErrorLevel, []⟩) ∧
      zerolog.Event.Msg (ConfigLoader w) env (some ⟨zerolog.ErrorLevel, []⟩) "" out =
        .error Panic.typeAssertion) ∧
    (∀ N, getLogger (SetLoggerLevel L g) N context = .ok e →
      (mapIndex (0 : zerolog.Level) logger_levels L).1 ≤
        (mapIndex (0 : zerolog.Level) logger_levels N).1 →
      zerolog.Event.Msg (ConfigLoader w) env e "" out = .error Panic.typeAssertion) ∧
    (∀ N, getLogger (SetLoggerLevel L g) N context = .ok e →
      ¬ (mapIndex (0 : zerolog.Level) logger_levels L).1 ≤
        (mapIndex (0 : zerolog.Level) logger_levels N).1 →
      zerolog.Event.Msg w env e msg out = .ok out) ∧
    (msg ≠ "" ∨ w = zerolog.Writer.json →
      (Debug (SetLoggerLevel L g) context = .ok e →
        ((∃ o, zerolog.Event.Msg w env e msg out = .ok (out ++ [o])) ↔
          (mapIndex (0 : zerolog.Level) logger_levels L).1 ≤ zerolog.DebugLevel)) ∧
      (Info (SetLoggerLevel L g) context = .ok e →
        ((∃ o, zerolog.Event.Msg w env e msg out = .ok (out ++ [o])) ↔
          (mapIndex (0 : zerolog.Level) logger_levels L).1 ≤ zerolog.InfoLevel)) ∧
      (Warn (SetLoggerLevel L g) context = .ok e →
        ((∃ o, zerolog.Event.Msg w env e msg out = .ok (out ++ [o])) ↔
          (mapIndex (0 : zerolog.Level) logger_levels L).1 ≤ zerolog.WarnLevel)) ∧
      (Error (SetLoggerLevel L g) context = .ok e →
        ((∃ o, zerolog.Event.Msg w env e msg out = .ok (out ++ [o])) ↔
          (mapIndex (0 : zerolog.Level) logger_levels L).1 ≤ zerolog.ErrorLevel))) ∧
    (mapIndex (0 : zerolog.Level) logger_levels L).1 ∈
      [zerolog.DebugLevel, zerolog.InfoLevel, zerolog.WarnLevel, zerolog.ErrorLevel] := by
  have htrace : ∀ N, zerolog.TraceLevel ≤ (mapIndex (0 : zerolog.Level) logger_levels N).1 := by
    intro N
    rcases level_of_name N with h | h | h | h <;> rw [h] <;> decide
  have hiff : ∀ N, msg ≠ "" ∨ w = zerolog.Writer.json →
      getLogger (SetLoggerLevel L g) N context = .ok e →
      ((∃ o, zerolog.Event.Msg w env e msg out = .ok (out ++ [o])) ↔
        (mapIndex (0 : zerolog.Level) logger_levels L).1 ≤
          (mapIndex (0 : zerolog.Level) logger_levels N).1) := by
    intro N hm h
    have hM := Msg_entry_event w env _ N context e msg out h
    rw [← live_iff g L N context e (htrace N) h]
    constructor
    · rintro ⟨o, ho⟩
      cases hs : e.isSome with
      | true => rfl
      | false =>
        rw [hM.1 hs] at ho
        injection ho with ho
        have hlen := congrArg List.length ho
        simp at hlen
    · intro hs
      exact hM.2.1 hs hm
  refine ⟨⟨?_, ?_⟩, ?_, ?_, ?_, ?_⟩
  · show getLogger (SetLoggerLevel "ERROR" g) "ERROR" [] = _
    rw [getLogger_nil_context, SetLoggerLevel_eq]
    rfl
  · have h0 : getLogger (SetLoggerLevel "ERROR" g) "ERROR" [] =
        .ok (some ⟨zerolog.ErrorLevel, []⟩) := by
      rw [getLogger_nil_context, SetLoggerLevel_eq]
      rfl
    exact (Msg_entry_event (ConfigLoader w) env _ "ERROR" [] _ "" out h0).2.2 rfl rfl rfl
  · intro N h hle
    exact (Msg_entry_event (ConfigLoader w) env _ N context e "" out h).2.2
      ((live_iff g L N context e (htrace N) h).mpr hle) rfl rfl
  · intro N h hnle
    have hs : e.isSome = false := by
      cases hs : e.isSome with
      | false => rfl
      | true => exact absurd ((live_iff g L N context e (htrace N) h).mp hs) hnle
    exact (Msg_entry_event w env _ N context e msg out h).1 hs
  · intro hm
    exact ⟨hiff "DEBUG" hm, hiff "INFO" hm, hiff "WARN" hm, hiff "ERROR" hm⟩
  · simp only [levelNames, List.mem_cons, List.mem_singleton, List.not_mem_nil, or_false] at hL
    rcases hL with rfl | rfl | rfl | rfl <;> decide

/-- Witness of C3: after `ConfigLoader` and `SetLoggerLevel "ERROR"`, the live
handle of `Error` finalised with the empty message panics, and finalised with
a message it is written. -/
theorem C3_empty_message_panics_before_rendering_witness :
    "ERROR" ∈ levelNames ∧
    Error (SetLoggerLevel "ERROR" zerolog.Globals.init) [] =
      .ok (some ⟨zerolog.ErrorLevel, []⟩) ∧
    zerolog.Event.Msg (ConfigLoader zerolog.Writer.json)
        ⟨"2026-01-05T10:00:00Z", "main.go:12", fun s => "quoted:" ++ s⟩
        (some ⟨zerolog.ErrorLevel, []⟩) "" [] = .error Panic.typeAssertion ∧
    ((∃ o, zerolog.Event.Msg zerolog.Writer.console
        ⟨"2026-01-05T10:00:00Z", "main.go:12", fun s => "quoted:" ++ s⟩
        (some ⟨zerolog.ErrorLevel, []⟩) "failed" [] = .ok ([] ++ [o])) ↔
      (mapIndex (0 : zerolog.Level) logger_levels "ERROR").1 ≤ zerolog.ErrorLevel) :=
  ⟨by decide, by decide,
   (C3_empty_message_panics_before_rendering
      ⟨"2026-01-05T10:00:00Z", "main.go:12", fun s => "quoted:" ++ s⟩ zerolog.Globals.init
      zerolog.Writer.json "ERROR" (by decide) [] (some ⟨zerolog.ErrorLevel, []⟩) "failed"
      []).1.2,
   (C3_empty_message_panics_before_rendering
      ⟨"2026-01-05T10:00:00Z", "main.go:12", fun s => "quoted:" ++ s⟩ zerolog.Globals.init
      zerolog.Writer.console "ERROR" (by decide) [] (some ⟨zerolog.ErrorLevel, []⟩) "failed"
      []).2.2.2.1 (Or.inl (by decide)) |>.2.2.2 (by decide)⟩

/-- C4: each public entry point creates its event with the engine constructor
of its own name: without a context `Debug`, `Info`, `Warn` and `Error` return
the handle of `log.Debug`, `log.Info`, `log.Warn` and `log.Error`, with a
context the same handle with the request id attached, and for every list of
contexts every live event they return has the debug, info, warn and error
level respectively. -/
theorem C4_entry_points_own_level (g : zerolog.Globals)
    (context : List (Option gin.Context)) :
    (∀ e, Debug g context = .ok (some e) → e.level = zerolog.DebugLevel) ∧
    (∀ e, Info g context = .ok (some e) → e.level = zerolog.InfoLevel) ∧
    (∀ e, Warn g context = .ok (some e) → e.level = zerolog.WarnLevel) ∧
    (∀ e, Error g context = .ok (some e) → e.level = zerolog.ErrorLevel) ∧
    Debug g [] = .ok (log.Debug g) ∧ Info g [] = .ok (log.Info g) ∧
    Warn g [] = .ok (log.Warn g) ∧ Error g [] = .ok (log.Error g) ∧
    (∀ c rest id, getRequestID c = .ok id →
      Debug g (c :: rest) =
        .ok (zerolog.Event.Str (log.Debug g) "request-id" (colorGreen ++ id ++ colorReset)) ∧
      Info g (c :: rest) =
        .ok (zerolog.Event.Str (log.Info g) "request-id" (colorGreen ++ id ++ colorReset)) ∧
      Warn g (c :: rest) =
        .ok (zerolog.Event.Str (log.Warn g) "request-id" (colorGreen ++ id ++ colorReset)) ∧
      Error g (c :: rest) =
        .ok (zerolog.Event.Str (log.Error g) "request-id" (colorGreen ++ id ++ colorReset))) := by
  refine ⟨?_, ?_, ?_, ?_, rfl, rfl, rfl, rfl, ?_⟩
  · intro e he; exact getLogger_level g "DEBUG" context e he
  · intro e he; exact getLogger_level g "INFO" context e he
  · intro e he; exact getLogger_level g "WARN" context e he
  · intro e he; exact getLogger_level g "ERROR" context e he
  · intro c rest id hid
    refine ⟨?_, ?_, ?_, ?_⟩
    · show getLogger g "DEBUG" (c :: rest) = _
      rw [getLogger_cons_context, hid]; rfl
    · show getLogger g "INFO" (c :: rest) = _
      rw [getLogger_cons_context, hid]; rfl
    · show getLogger g "WARN" (c :: rest) = _
      rw [getLogger_cons_context, hid]; rfl
    · show getLogger g "ERROR" (c :: rest) = _
      rw [getLogger_cons_context, hid]; rfl

/-- Witness of C4 in the initial engine state: `Warn` with a request returns a
live event, and its level is the warn level. -/
theorem C4_entry_points_own_level_witness :
    Warn zerolog.Globals.init [some ⟨some ⟨[("X-Request-Id", ["abc-123"])]⟩⟩] =
      .ok (some ⟨2, [("request-id", .str "\x1b[32mabc-123\x1b[0m")]⟩) ∧
    (⟨2, [("request-id", .str "\x1b[32mabc-123\x1b[0m")]⟩ : zerolog.Event).level =
      zerolog.WarnLevel :=
  ⟨by decide,
   (C4_entry_points_own_level zerolog.Globals.init
      [some ⟨some ⟨[("X-Request-Id", ["abc-123"])]⟩⟩]).2.2.1
      ⟨2, [("request-id", .str "\x1b[32mabc-123\x1b[0m")]⟩ (by decide)⟩

/-- C5: `getLogger` attaches the request-id field exactly when a context is
passed. With no context the result is the handle of the engine constructor the
name is bound to (the debug one for an unknown name), a live event carrying no
field. With a context that has a request the result is that handle with the
string field "request-id" attached, so a live event carries exactly this one
field; its value is the green colour code, then the value `h` stored under
the request header X-Request-ID (canonical key "X-Request-Id"), then the reset
code. The value contains `h` as a substring, and when the header is absent `h`
is empty and the field is still attached, its value being the two colour codes
alone. -/
theorem C5_request_id_attached_iff_context (g : zerolog.Globals) (level : String)
    (r : http.Request) (rest : List (Option gin.Context)) (logger : Option zerolog.Event)
    (hlogger : logger =
      if level = "DEBUG" then log.Debug g else if level = "WARN" then log.Warn g
      else if level = "INFO" then log.Info g else if level = "ERROR" then log.Error g
      else log.Debug g) :
    getLogger g level [] = .ok logger ∧
    (∀ e, logger = some e → e.fields = []) ∧
    getLogger g level (some ⟨some r⟩ :: rest) =
      .ok (zerolog.Event.Str logger "request-id"
        ("\x1b[32m" ++ r.Header.Get "X-Request-ID" ++ "\x1b[0m")) ∧
    (∀ e, logger = some e →
      getLogger g level (some ⟨some r⟩ :: rest) =
        .ok (some ⟨e.level,
          [("request-id",
            zerolog.FieldValue.str
              ("\x1b[32m" ++ r.Header.Get "X-Request-ID" ++ "\x1b[0m"))]⟩)) ∧
    (logger = none → getLogger g level (some ⟨some r⟩ :: rest) = .ok none) ∧
    (r.Header.Get "X-Request-ID" =
      match (mapIndex [] r.Header "X-Request-Id").1 with
      | [] => ""
      | v :: _ => v) ∧
    (r.Header.Get "X-Request-ID").data <:+:
      ("\x1b[32m" ++ r.Header.Get "X-Request-ID" ++ "\x1b[0m").data ∧
    ((∀ kv ∈ r.Header, kv.1 ≠ "X-Request-Id") →
      r.Header.Get "X-Request-ID" = "" ∧
      getLogger g level (some ⟨some r⟩ :: rest) =
        .ok (zerolog.Event.Str logger "request-id" ("\x1b[32m" ++ "" ++ "\x1b[0m"))) ∧
    (∀ v vs tail, r.Header = ("X-Request-Id", v :: vs) :: tail →
      r.Header.Get "X-Request-ID" = v ∧
      getLogger g level (some ⟨some r⟩ :: rest) =
        .ok (zerolog.Event.Str logger "request-id" ("\x1b[32m" ++ v ++ "\x1b[0m"))) := by
  have hres : logger =
      zerolog.newEvent g (mapIndex (0 : zerolog.Level) logger_levels level).1 := by
    rw [hlogger]
    by_cases h1 : level = "DEBUG"
    · subst h1; rfl
    by_cases h2 : level = "WARN"
    · subst h2; rfl
    by_cases h3 : level = "INFO"
    · subst h3; rfl
    by_cases h4 : level = "ERROR"
    · subst h4; rfl
    simp [mapIndex, logger_levels, h1, h2, h3, h4, log.Debug, zerolog.DebugLevel]
  have hfields : ∀ e, logger = some e → e.fields = [] := by
    intro e he
    rw [hres] at he
    unfold zerolog.newEvent at he
    split at he
    · injection he with he; rw [← he]
    · exact absurd he (by simp)
  have hcons : getLogger g level (some ⟨some r⟩ :: rest) =
      .ok (zerolog.Event.Str logger "request-id"
        ("\x1b[32m" ++ r.Header.Get "X-Request-ID" ++ "\x1b[0m")) := by
    rw [getLogger_cons_context, hres]; rfl
  have hkey : http.CanonicalMIMEHeaderKey "X-Request-ID" = "X-Request-Id" := by decide
  have hget : r.Header.Get "X-Request-ID" =
      match (mapIndex [] r.Header "X-Request-Id").1 with
      | [] => ""
      | v :: _ => v := by
    unfold http.Header.Get
    rw [hkey]
  refine ⟨?_, hfields, hcons, ?_, ?_, hget, ?_, ?_, ?_⟩
  · rw [getLogger_nil_context, hres]
  · intro e he
    rw [hcons, he]
    simp [zerolog.Event.Str, hfields e he]
  · intro hn
    rw [hcons, hn]
    rfl
  · exact ⟨"\x1b[32m".data, "\x1b[0m".data, by simp [String.data_append]⟩
  · intro habs
    have h0 : r.Header.Get "X-Request-ID" = "" := by
      rw [hget, mapIndex_absent [] r.Header _ habs]
    exact ⟨h0, by rw [hcons, h0]⟩
  · intro v vs tail hh
    have h0 : r.Header.Get "X-Request-ID" = v := by
      rw [hget, hh]
      simp [mapIndex]
    exact ⟨h0, by rw [hcons, h0]⟩

/-- Witness of C5 in the initial engine state: `getLogger "INFO"` on a request
carrying the header returns a live info event whose only field is the
request id between the colour codes. -/
theorem C5_request_id_attached_iff_context_witness :
    getLogger zerolog.Globals.init "INFO" [] = .ok (some ⟨zerolog.InfoLevel, []⟩) ∧
    getLogger zerolog.Globals.init "INFO" [some ⟨some ⟨[("X-Request-Id", ["abc-123"])]⟩⟩] =
      .ok (some ⟨zerolog.InfoLevel,
        [("request-id", zerolog.FieldValue.str "\x1b[32mabc-123\x1b[0m")]⟩) ∧
    getLogger zerolog.Globals.init "INFO" [some ⟨some ⟨[("Accept", ["text/html"])]⟩⟩] =
      .ok (some ⟨zerolog.InfoLevel,
        [("request-id", zerolog.FieldValue.str "\x1b[32m\x1b[0m")]⟩) :=
  ⟨(C5_request_id_attached_iff_context zerolog.Globals.init "INFO"
      ⟨[("X-Request-Id", ["abc-123"])]⟩ [] (some ⟨zerolog.InfoLevel, []⟩) (by decide)).1,
   (C5_request_id_attached_iff_context zerolog.Globals.init "INFO"
      ⟨[("X-Request-Id", ["abc-123"])]⟩ [] (some ⟨zerolog.InfoLevel, []⟩)
      (by decide)).2.2.2.1 ⟨zerolog.InfoLevel, []⟩ rfl,
   (C5_request_id_attached_iff_context zerolog.Globals.init "INFO"
      ⟨[("Accept", ["text/html"])]⟩ [] (some ⟨zerolog.InfoLevel, []⟩)
      (by decide)).2.2.2.1 ⟨zerolog.InfoLevel, []⟩ rfl⟩

/-- C6: for every level string `v` the level rule returns `v` between two pipe
characters, wrapped in the yellow code and the reset code when `v` in upper
case is "INFO", in the red code and the reset code when it is "WARN" or
"ERROR", and bare otherwise. The colour depends on the upper-cased spelling
only and the label keeps the spelling of `v`; a label of any other level adds
no escape character to `v` (so "DEBUG" and "debug" carry none), while the
labels of the three coloured levels contain one. -/
theorem C6_level_label (v : String) :
    (strings.ToUpper v = "INFO" →
      ConfigLoader.FormatLevel (.string v) = .ok ("|" ++ ("\x1b[33m" ++ v ++ "\x1b[0m") ++ "|")) ∧
    (strings.ToUpper v = "WARN" ∨ strings.ToUpper v = "ERROR" →
      ConfigLoader.FormatLevel (.string v) = .ok ("|" ++ ("\x1b[31m" ++ v ++ "\x1b[0m") ++ "|")) ∧
    (strings.ToUpper v ≠ "INFO" ∧ strings.ToUpper v ≠ "WARN" ∧ strings.ToUpper v ≠ "ERROR" →
      ConfigLoader.FormatLevel (.string v) = .ok ("|" ++ v ++ "|")) ∧
    (∀ w, strings.ToUpper w = strings.ToUpper v →
      ∃ p q, getColoredDebug v = p ++ v ++ q ∧ getColoredDebug w = p ++ w ++ q) ∧
    (strings.ToUpper v ≠ "INFO" ∧ strings.ToUpper v ≠ "WARN" ∧ strings.ToUpper v ≠ "ERROR" →
      ESC ∉ v.data →
      ∀ s, ConfigLoader.FormatLevel (.string v) = .ok s → ESC ∉ s.data) ∧
    (strings.ToUpper v = "INFO" ∨ strings.ToUpper v = "WARN" ∨ strings.ToUpper v = "ERROR" →
      ∀ s, ConfigLoader.FormatLevel (.string v) = .ok s → ESC ∈ s.data) ∧
    ConfigLoader.FormatLevel (.string "DEBUG") = .ok "|DEBUG|" ∧
    ConfigLoader.FormatLevel (.string "debug") = .ok "|debug|" ∧
    ConfigLoader.FormatLevel (.string "WARN") = .ok "|\x1b[31mWARN\x1b[0m|" ∧
    ConfigLoader.FormatLevel (.string "error") = .ok "|\x1b[31merror\x1b[0m|" ∧
    ConfigLoader.FormatLevel (.string "Info") = .ok "|\x1b[33mInfo\x1b[0m|" := by
  have hfmt : ConfigLoader.FormatLevel (.string v) = .ok ("|" ++ getColoredDebug v ++ "|") := rfl
  have hinfo : strings.ToUpper v = "INFO" →
      getColoredDebug v = "\x1b[33m" ++ v ++ "\x1b[0m" := by
    intro h
    simp [getColoredDebug, h, colorYellow, colorReset]
  have hred : strings.ToUpper v = "WARN" ∨ strings.ToUpper v = "ERROR" →
      getColoredDebug v = "\x1b[31m" ++ v ++ "\x1b[0m" := by
    intro h
    have hne : strings.ToUpper v ≠ "INFO" := by
      rcases h with h | h <;> rw [h] <;> decide
    simp [getColoredDebug, h, hne, colorRed, colorReset]
  have hplain : strings.ToUpper v ≠ "INFO" ∧ strings.ToUpper v ≠ "WARN" ∧
      strings.ToUpper v ≠ "ERROR" → getColoredDebug v = v := by
    rintro ⟨h1, h2, h3⟩
    simp [getColoredDebug, h1, h2, h3]
  refine ⟨?_, ?_, ?_, ?_, ?_, ?_, by decide, by decide, by decide, by decide, by decide⟩
  · intro h; rw [hfmt, hinfo h]
  · intro h; rw [hfmt, hred h]
  · intro h; rw [hfmt, hplain h]
  · intro w hw
    by_cases h1 : strings.ToUpper v = "INFO"
    · refine ⟨colorYellow, colorReset, ?_, ?_⟩
      · simp [getColoredDebug, h1]
      · simp [getColoredDebug, hw, h1]
    · by_cases h2 : strings.ToUpper v = "WARN" ∨ strings.ToUpper v = "ERROR"
      · refine ⟨colorRed, colorReset, ?_, ?_⟩
        · simp only [getColoredDebug, h1, h2, if_true, if_false]
        · simp only [getColoredDebug, hw, h1, h2, if_true, if_false]
      · refine ⟨"", "", ?_, ?_⟩
        · simp only [getColoredDebug, h1, h2, if_false]
          simp
        · simp only [getColoredDebug, hw, h1, h2, if_false]
          simp
  · intro h hv s hs
    rw [hfmt, hplain h] at hs
    injection hs with hs
    rw [← hs]
    simp only [String.data_append, List.mem_append, not_or]
    exact ⟨⟨by decide, hv⟩, by decide⟩
  · intro h s hs
    rw [hfmt] at hs
    injection hs with hs
    rw [← hs]
    rcases h with h | h | h
    · rw [hinfo h]
      simp only [String.data_append, List.mem_append]
      exact Or.inl (Or.inr (Or.inl (Or.inl (by decide))))
    · rw [hred (Or.inl h)]
      simp only [String.data_append, List.mem_append]
      exact Or.inl (Or.inr (Or.inl (Or.inl (by decide))))
    · rw [hred (Or.inr h)]
      simp only [String.data_append, List.mem_append]
      exact Or.inl (Or.inr (Or.inl (Or.inl (by decide))))

/-- Witness of C6 at the level names the engine writes, "warn" and "debug". -/
theorem C6_level_label_witness :
    ConfigLoader.FormatLevel (.string "warn") =
      .ok ("|" ++ ("\x1b[31m" ++ "warn" ++ "\x1b[0m") ++ "|") ∧
    ConfigLoader.FormatLevel (.string "debug") = .ok ("|" ++ "debug" ++ "|") :=
  ⟨(C6_level_label "warn").2.1 (by decide), (C6_level_label "debug").2.2.1 (by decide)⟩

/-- C7, counterexample: with the minimum level set to "ERROR" the dispatcher
returns the nil handle for the supported name "INFO". -/
theorem C7_counterexample_nil_handle :
    getLogger (SetLoggerLevel "ERROR" zerolog.Globals.init) "INFO" [] = .ok none ∧
    Info (SetLoggerLevel "ERROR" zerolog.Globals.init) [] = .ok none := by
  decide

/-- C7, amended: for a supported name `N` and the minimum level set by
`SetLoggerLevel L`, the handle the dispatcher returns for `N` is non-nil
exactly when the level of `N` is at least the level of `L` (the debug level
for an unknown `L`); without a context the call always returns, and with the
minimum at "DEBUG", or in the initial engine state (minimum at the trace
level, below every supported level), the handle is non-nil for each of the
four names. -/
theorem C7_handle_live_iff_enabled (g : zerolog.Globals) (L N : String)
    (hN : N ∈ levelNames) (context : List (Option gin.Context)) :
    (∀ e, getLogger (SetLoggerLevel L g) N context = .ok e →
      (e ≠ none ↔
        (mapIndex (0 : zerolog.Level) logger_levels L).1 ≤
          (mapIndex (0 : zerolog.Level) logger_levels N).1)) ∧
    (∃ e, getLogger (SetLoggerLevel L g) N [] = .ok e) ∧
    (∀ e, getLogger (SetLoggerLevel "DEBUG" g) N context = .ok e → e ≠ none) ∧
    (∀ e, getLogger zerolog.Globals.init N context = .ok e → e ≠ none) ∧
    zerolog.GlobalLevel zerolog.Globals.init = zerolog.TraceLevel ∧
    zerolog.TraceLevel < zerolog.DebugLevel := by
  have hNlvl : zerolog.TraceLevel ≤ (mapIndex (0 : zerolog.Level) logger_levels N).1 ∧
      (mapIndex (0 : zerolog.Level) logger_levels "DEBUG").1 ≤
        (mapIndex (0 : zerolog.Level) logger_levels N).1 ∧
      zerolog.should zerolog.Globals.init
        (mapIndex (0 : zerolog.Level) logger_levels N).1 = true := by
    simp only [levelNames, List.mem_cons, List.mem_singleton, List.not_mem_nil, or_false] at hN
    rcases hN with rfl | rfl | rfl | rfl <;> decide
  have hsome : ∀ e : Option zerolog.Event, e ≠ none ↔ e.isSome = true := by
    intro e; cases e <;> simp
  have hlive : ∀ (L0 : String) (e : Option zerolog.Event),
      getLogger (SetLoggerLevel L0 g) N context = .ok e →
      (e ≠ none ↔
        (mapIndex (0 : zerolog.Level) logger_levels L0).1 ≤
          (mapIndex (0 : zerolog.Level) logger_levels N).1) := by
    intro L0 e he
    rw [hsome]
    exact live_iff g L0 N context e hNlvl.1 he
  refine ⟨hlive L, ⟨_, getLogger_nil_context _ N⟩, ?_, ?_, rfl, by decide⟩
  · intro e he
    exact (hlive "DEBUG" e he).mpr hNlvl.2.1
  · intro e he
    rw [hsome, getLogger_isSome _ _ _ _ he]
    exact hNlvl.2.2

/-- Witness of C7 amended: after `SetLoggerLevel "WARN"` the "ERROR" handle is
non-nil, the level of "WARN" being at most the level of "ERROR". -/
theorem C7_handle_live_iff_enabled_witness :
    "ERROR" ∈ levelNames ∧
    getLogger (SetLoggerLevel "WARN" zerolog.Globals.init) "ERROR" [] =
      .ok (some ⟨zerolog.ErrorLevel, []⟩) ∧
    ((some ⟨zerolog.ErrorLevel, []⟩ : Option zerolog.Event) ≠ none ↔
      (mapIndex (0 : zerolog.Level) logger_levels "WARN").1 ≤
        (mapIndex (0 : zerolog.Level) logger_levels "ERROR").1) :=
  ⟨by decide, by decide,
   (C7_handle_live_iff_enabled zerolog.Globals.init "WARN" "ERROR" (by decide)
      []).1 (some ⟨zerolog.ErrorLevel, []⟩) (by decide)⟩

/-- C8, counterexample: a nil context pointer, and a context whose request is
nil, make the dispatcher panic while it reads the header. -/
theorem C8_counterexample_nil_context :
    getLogger zerolog.Globals.init "INFO" [none] = .error Panic.nilDereference ∧
    getLogger zerolog.Globals.init "INFO" [some ⟨none⟩] = .error Panic.nilDereference := by
  decide

/-- C8, amended: for every severity name and every list of contexts that is
empty or whose first context is non-nil and carries a request (with or without
the header), the dispatcher returns an event handle and does not fail. -/
theorem C8_returns_with_request (g : zerolog.Globals) (level : String)
    (context : List (Option gin.Context))
    (h : context = [] ∨ ∃ r rest, context = some ⟨some r⟩ :: rest) :
    ∃ e, getLogger g level context = .ok e := by
  rcases h with rfl | ⟨r, rest, rfl⟩
  · exact ⟨_, getLogger_nil_context g level⟩
  · rw [getLogger_cons_context]
    exact ⟨_, rfl⟩

/-- Witness of C8 amended at an unknown name and a request without headers,
followed by a nil context. -/
theorem C8_returns_with_request_witness :
    ([some ⟨some ⟨[]⟩⟩, none] = ([] : List (Option gin.Context)) ∨
      ∃ r rest, [some ⟨some ⟨[]⟩⟩, none] = (some ⟨some r⟩ :: rest : List (Option gin.Context))) ∧
    ∃ e, getLogger zerolog.Globals.init "TRACE" [some ⟨some ⟨[]⟩⟩, none] = .ok e :=
  ⟨Or.inr ⟨⟨[]⟩, [none], rfl⟩,
   C8_returns_with_request zerolog.Globals.init "TRACE" [some ⟨some ⟨[]⟩⟩, none]
     (Or.inr ⟨⟨[]⟩, [none], rfl⟩)⟩

/-- C9: the field-value rule returns a string value unchanged, but the value
the console writer hands it for an integer field, a `json.Number`, fails the
type assertion: the rule panics instead of returning the value. -/
theorem C9_field_value_panics_on_number :
    ConfigLoader.FormatFieldValue (.jsonNumber "42") = .error Panic.typeAssertion ∧
    ConfigLoader.FormatFieldValue (.bytes [116, 114, 117, 101]) = .error Panic.typeAssertion ∧
    ConfigLoader.FormatFieldValue (.string "abc-123") = .ok "abc-123" := by
  decide

/-- C10: for all strings `t`, `m` and `n` the timestamp rule returns the blue
code, `t` in square brackets and the reset code, the message rule returns `m`
after a dash and a space, and the field-name rule returns `n` followed by a
colon; each output contains its input as a contiguous substring. -/
theorem C10_decorations (t m n : String) :
    ConfigLoader.FormatTimestamp (.string t) = .ok ("\x1b[34m" ++ "[" ++ t ++ "]" ++ "\x1b[0m") ∧
    ConfigLoader.FormatMessage (.string m) = .ok ("- " ++ m) ∧
    ConfigLoader.FormatFieldName (.string n) = .ok (n ++ ":") ∧
    t.data <:+: ("\x1b[34m" ++ "[" ++ t ++ "]" ++ "\x1b[0m").data ∧
    m.data <:+: ("- " ++ m).data ∧
    n.data <:+: (n ++ ":").data ∧
    ("\x1b[34m" ++ "[" ++ t ++ "]" ++ "\x1b[0m").data =
      "\x1b[34m[".data ++ t.data ++ "]\x1b[0m".data := by
  refine ⟨rfl, rfl, rfl, ?_, ?_, ?_, ?_⟩
  · exact ⟨"\x1b[34m[".data, "]\x1b[0m".data, by simp [String.data_append]⟩
  · exact ⟨"- ".data, [], by simp [String.data_append]⟩
  · exact ⟨[], ":".data, by simp [String.data_append]⟩
  · simp [String.data_append]

end logger
